import Mathlib

/-!
Shallow embedding of the escrow/negotiation core of the `eliza_escrow`
repository, together with theorems settling the frozen claims about it.

Numbers: JavaScript floating-point values are modelled as rationals (ℚ);
`Math.floor` outputs are integers (ℤ).  Effectful collaborators (LLM
extraction, price oracle, RPC balance reads, transaction submission) are
modelled as explicit oracle inputs: a call that may throw is an
`Except String _` / `Option _` argument, so each source function becomes a
total Lean function of its code path inputs.
-/

/-! ## Deal Evaluator (negotiation.ts `evaluateProposedDeal`, duplicated in part_001) -/

/-- Result record of `evaluateProposedDeal`:
`{ shouldAccept, counterpartyTokenAmount, ourTokenAmount }`. -/
structure DealOutcome where
  shouldAccept : Bool
  counterpartyTokenAmount : ℚ
  ourTokenAmount : ℚ
  deriving DecidableEq, Repr

/-- Embedding of `evaluateProposedDeal` (negotiation.ts lines 778-877).
`extracted` is the LLM extraction oracle: `none` when `tokenInfo.token_amounts`
is missing, otherwise the pair `(counterparty_token_amount, our_token_amount)`
after the `|| 0` coercions.  `maxOfferAmount` is the tier's current
`max_offer_amount` (after balance adjustment).  `prices` is the price oracle:
`none` models `getTokenPrices` returning a falsy value, in which case the
source throws `new Error("Failed to fetch token prices")`; otherwise
`(our_token_price, counterparty_token_price)`. -/
def evaluateProposedDeal (extracted : Option (ℚ × ℚ)) (maxOfferAmount : ℚ)
    (prices : Option (ℚ × ℚ)) : Except String DealOutcome :=
  match extracted with
  | none => Except.ok ⟨false, 0, 0⟩
  | some (counterpartyTokenAmount, ourTokenAmount) =>
    if ourTokenAmount > maxOfferAmount then
      Except.ok ⟨false, 0, 0⟩
    else if ourTokenAmount = 0 ∨ counterpartyTokenAmount = 0 then
      Except.ok ⟨false, 0, 0⟩
    else
      match prices with
      | none => Except.error "Failed to fetch token prices"
      | some (our_token_price, counterparty_token_price) =>
        let counterpartyTokenValue := counterpartyTokenAmount * counterparty_token_price
        let ourTokenValue := ourTokenAmount * our_token_price
        Except.ok ⟨decide (counterpartyTokenValue ≥ ourTokenValue * (95/100)),
          counterpartyTokenAmount, ourTokenAmount⟩

/-! ## Offer Calculator (negotiation.ts `calculateOffer`, duplicated in part_001) -/

/-- Tier configuration record (the fields of `CounterpartyTier` that `calculateOffer` reads). -/
structure CounterpartyTier where
  max_offer_amount : ℚ
  min_offer_percentage : ℚ
  max_offer_percentage : ℚ
  deriving DecidableEq, Repr

/-- The `current_offer` record: amounts are `Math.floor` results, hence integers. -/
structure Offer where
  amount : ℤ
  usd_value : ℚ
  counterparty_amount : ℤ
  deriving DecidableEq, Repr

/-- Model of `Number(x.toFixed(6))`: round to 6 decimal places. -/
def round6 (q : ℚ) : ℚ := (⌊q * 1000000 + 1/2⌋ : ℚ) / 1000000

/-- Embedding of `calculateOffer` (negotiation.ts lines 610-666).
`Math.random()` is exposed through the oracle inputs: in the initial branch the
source computes `randomFactor = r * (maxPct/100 - minPct/100) + minPct/100`, in
the subsequent branch `randomFactor = r * 0.9 + 0.1`; the argument
`randomFactor` is that computed factor.  The JS guard
`!negotiationState.current_offer?.amount` treats a missing offer and an offer
with `amount = 0` alike, both taking the initial branch. -/
def calculateOffer (tier : CounterpartyTier) (our_token_price counterparty_token_price : ℚ)
    (prior : Option Offer) (randomFactor : ℚ) : Offer :=
  let fair_price := our_token_price / counterparty_token_price
  let max_fair_counterparty_amount := tier.max_offer_amount * fair_price
  match prior with
  | none =>
    let our_offer := tier.max_offer_amount * randomFactor
    ⟨⌊our_offer⌋, round6 (our_offer * our_token_price), ⌊max_fair_counterparty_amount⌋⟩
  | some current_offer =>
    if current_offer.amount = 0 then
      let our_offer := tier.max_offer_amount * randomFactor
      ⟨⌊our_offer⌋, round6 (our_offer * our_token_price), ⌊max_fair_counterparty_amount⌋⟩
    else
      let current_amount := current_offer.amount
      let room_to_max := tier.max_offer_amount - current_amount
      let additional_offer := room_to_max * randomFactor
      let new_our_offer := (current_amount : ℚ) + additional_offer
      ⟨⌊new_our_offer⌋, round6 (new_our_offer * our_token_price), ⌊max_fair_counterparty_amount⌋⟩

/-! ## Polling engine threshold check (index.ts `checkTokenBalance`) -/

/-- Embedding of `checkTokenBalance` (index.ts lines 539-588).
`balanceRead` is the RPC oracle: `none` models the account-missing and
thrown-error paths, both of which return `false`; `some raw` is the vault's raw
token amount.  `decimals` is the funding mint's decimal count.  The source
compares `currentUiAmount = raw / 10^decimals` against
`thresholdAmount = expectedAmount * threshold`, where `expectedAmount` is the
task's stored (UI-denominated) expected amount. -/
def checkTokenBalance (balanceRead : Option ℤ) (expectedAmount threshold : ℚ)
    (decimals : ℕ) : Bool :=
  match balanceRead with
  | none => false
  | some raw =>
    let currentUiAmount : ℚ := (raw : ℚ) / 10 ^ decimals
    let thresholdAmount := expectedAmount * threshold
    decide (currentUiAmount ≥ thresholdAmount)

/-! ## PollingTask data model (index.ts `PollingTask`) -/

/-- The `status` field of a `PollingTask`. -/
inductive TaskStatus where
  | pending
  | completed
  | failed
  | request_cancel
  | cancelled
  deriving DecidableEq, Repr

/-- The fields of a `PollingTask` the verified operations read or write.
`tweetId` models `task.tweet?.id` (`none` when the embedded tweet is absent);
the other embedded conversational context and the `EscrowAccounts` identifiers
ride along unchanged and are represented by the remaining fields. -/
structure PollingTask where
  escrow : String
  tweetId : Option String
  associatedTokenAccount : String
  mintAddress : String
  expectedAmount : ℚ
  threshold : ℚ
  status : TaskStatus
  error : Option String
  completedTime : Option ℤ
  deriving DecidableEq, Repr

/-! ## Task registration (index.ts `addPollingTask`, lines 465-529) -/

/-- Arguments of `addPollingTask` that matter to the registration logic; the
embedded tweet id is the idempotency key. -/
structure AddTaskArgs where
  associatedTokenAccount : String
  mintAddress : String
  expectedAmount : ℚ
  escrow : String
  tweetId : String
  deriving DecidableEq, Repr

/-- The `PollingTask` record built by `addPollingTask`: `status: 'pending'`
plus the given threshold (source default `0.95`). -/
def mkPollingTask (args : AddTaskArgs) (threshold : ℚ) : PollingTask :=
  { escrow := args.escrow
    tweetId := some args.tweetId
    associatedTokenAccount := args.associatedTokenAccount
    mintAddress := args.mintAddress
    expectedAmount := args.expectedAmount
    threshold := threshold
    status := TaskStatus.pending
    error := none
    completedTime := none }

/-- Source default for the `threshold` parameter of `addPollingTask`. -/
def defaultThreshold : ℚ := 19/20

/-- Embedding of `addPollingTask` (index.ts lines 465-529).  Returns the new
in-memory task list together with a flag recording whether `saveState` ran
(i.e. whether the persisted state was touched).  The source returns early,
without pushing or saving, when `this.state.tasks` already holds a task with
the same `tweet.id`. -/
def addPollingTask (tasks : List PollingTask) (args : AddTaskArgs)
    (threshold : ℚ) : List PollingTask × Bool :=
  if tasks.any (fun task => task.tweetId == some args.tweetId) then
    (tasks, false)
  else
    (tasks ++ [mkPollingTask args threshold], true)

/-! ## Exchange execution (index.ts `executeActions`, lines 590-628) -/

/-- Embedding of `executeActions`.  `nowMs` is `Date.now()`.  `exchangeResult`
is the oracle for `executeExchange` (ok: transaction id, error: thrown
message); `notifyResult` is the oracle for
`negotiationHandler.notifyEscrowComplete`.  The source wraps the whole body in
one `try`: the `catch` sets `status = 'failed'` for ANY throw inside it,
including a throw out of the completion callback that runs after
`task.status = 'completed'` was assigned. -/
def executeActions (task : PollingTask) (hasNegotiationHandler : Bool) (nowMs : ℤ)
    (exchangeResult : Except String String) (notifyResult : Except String Unit) :
    PollingTask :=
  match exchangeResult with
  | Except.error e => { task with status := TaskStatus.failed, error := some e }
  | Except.ok _ =>
    let completedTask := { task with
      status := TaskStatus.completed
      completedTime := some nowMs }
    if hasNegotiationHandler && !(task.tweetId.getD "").isEmpty then
      match notifyResult with
      | Except.ok _ => completedTask
      | Except.error e =>
        { completedTask with status := TaskStatus.failed, error := some e }
    else
      completedTask

/-! ## Poll-pass reconciliation (index.ts `pollTasks`, lines 630-694) -/

/-- Escrow keys of a task list, in order. -/
def taskKeys (ts : List PollingTask) : List String := ts.map PollingTask.escrow

/-- A task list whose escrow keys are pairwise distinct (every live task set
holds at most one task per escrow; `pollTasks` itself re-deduplicates by
escrow at the end of each pass). -/
def uniqueKeys (ts : List PollingTask) : Prop := (taskKeys ts).Nodup

/-- Model of `new Map(tasks.map(task => [task.escrow, task])).get(k)`: for a
duplicated key the LAST entry wins, matching JS `Map` construction. -/
def mapGet (ts : List PollingTask) (k : String) : Option PollingTask :=
  (ts.filter (fun t => t.escrow == k)).getLast?

/-- Model of `new Set(keys)` iteration order: first occurrence of each key. -/
def dedupFirst (seen : List String) : List String → List String
  | [] => []
  | k :: ks =>
    if k ∈ seen then dedupFirst seen ks else k :: dedupFirst (k :: seen) ks

/-- The merge performed at the start of `pollTasks`: in-memory and on-disk
task sets are merged by escrow key; for a key in both with differing statuses
the result is `{ ...memoryTask, status: fileTask.status }`; otherwise the
single present task is kept. -/
def reconcileTasks (fileTasks memoryTasks : List PollingTask) : List PollingTask :=
  let keys := dedupFirst [] (taskKeys fileTasks ++ taskKeys memoryTasks)
  keys.filterMap (fun escrow =>
    match mapGet fileTasks escrow, mapGet memoryTasks escrow with
    | some fileTask, some memoryTask =>
      some (if fileTask.status ≠ memoryTask.status then
        { memoryTask with status := fileTask.status }
      else memoryTask)
    | some fileTask, none => some fileTask
    | none, some memoryTask => some memoryTask
    | none, none => none)

/-- The tasks for which the `pollTasks` loop submits an on-chain cancellation
on this pass: exactly those whose (merged) status is `request_cancel`. -/
def cancelAttempts (merged : List PollingTask) : List PollingTask :=
  merged.filter (fun t => t.status == TaskStatus.request_cancel)

/-! ## Escrow setup submission loop (index.ts `setupEscrow`, lines 841-1006) -/

/-- Outcome of one submission attempt (simulate + `sendAndConfirmTransaction`):
success with a signature, or a thrown error whose message may or may not
contain `"block height exceeded"`. -/
inductive AttemptResult where
  | success (signature : String)
  | failure (blockHeightExceeded : Bool) (msg : String)
  deriving DecidableEq, Repr

/-- Whether an attempt failed with the block-height-exceeded condition. -/
def isBlockHeightFailure : AttemptResult → Bool
  | AttemptResult.failure true _ => true
  | _ => false

/-- The transaction actually handed to `sendAndConfirmTransaction` on an
attempt: `finalTx` always carries the `ComputeBudgetProgram.setComputeUnitPrice`
priority-fee instruction first, and its `recentBlockhash` is the blockhash
fetched before the loop (the fresh blockhash fetched in the retry path is
stored on the instruction-container `transaction`, which `finalTx` does not
read its blockhash from). -/
structure SubmittedTx where
  hasPriorityFeeIx : Bool
  recentBlockhash : String
  deriving DecidableEq, Repr

/-- The `finalTx` built on every attempt of the `setupEscrow` loop. -/
def setupFinalTx (initialBlockhash : String) : SubmittedTx :=
  ⟨true, initialBlockhash⟩

/-- The `MAX_RETRIES` constant of `setupEscrow`. -/
def MAX_RETRIES : ℕ := 3

/-- Result of running the `setupEscrow` submission loop: the returned
signature or the propagated error, the number of submission attempts
performed, and the number of fresh-blockhash fetches performed in the retry
path (`getLatestBlockhash` inside the `catch`). -/
structure SetupRun where
  result : Except String String
  attempts : ℕ
  retryBlockhashFetches : ℕ
  deriving Repr

/-- One state of the `for (let i = 0; i < MAX_RETRIES; i++)` loop of
`setupEscrow`, with `outcome i` the oracle for attempt `i`.  On a
block-height-exceeded failure the loop fetches a fresh blockhash and
continues; on any other failure it rethrows at once; after the loop it throws
`lastError`. -/
def setupEscrowGo (outcome : ℕ → AttemptResult) :
    ℕ → ℕ → ℕ → String → SetupRun
  | 0, i, fetches, lastError => ⟨Except.error lastError, i, fetches⟩
  | fuel + 1, i, fetches, _lastError =>
    match outcome i with
    | AttemptResult.success signature => ⟨Except.ok signature, i + 1, fetches⟩
    | AttemptResult.failure true msg =>
      setupEscrowGo outcome fuel (i + 1) (fetches + 1) msg
    | AttemptResult.failure false msg => ⟨Except.error msg, i + 1, fetches⟩

/-- Embedding of the `setupEscrow` submission loop. -/
def setupEscrowRun (outcome : ℕ → AttemptResult) : SetupRun :=
  setupEscrowGo outcome MAX_RETRIES 0 0 ""

/-! ## Escrow verification (index.ts `verifyEscrowSetup`, lines 1072-1159,
and `verifyAndCompleteEscrow`, lines 1161-1208) -/

/-- Return record of `verifyEscrowSetup`. -/
structure EscrowVerification where
  isSecure : Bool
  isFunded : Bool
  remainingAmount : ℚ
  vaultB : Option String
  deriving DecidableEq, Repr

/-- Embedding of `verifyEscrowSetup`.  Oracle inputs, in the order the source
consults them: `internalThrow` models any thrown error (caught by the
function's own `catch`); `postTokenBalancesFound` models
`transaction?.meta?.postTokenBalances` being present (an unfound or truncated
transaction reference makes it absent); `escrowAccount` is the account in the
transaction's key list owned by the escrow program, if any; `vaultsFound`
gives the two vault addresses matched from post token balances;
`vaultInfosFound` models both `getAccountInfo` calls returning data;
`balanceA`/`balanceB` are the raw vault balances;
`rawExpectedAmountA`/`rawExpectedAmountB` the scaled expected amounts;
`escrowOwnerIsProgram` and `vaultLayoutsOk` the two components of the
`isSecure` conjunction.  Every failure path returns the soft record
`{ isSecure: false, isFunded: false, remainingAmount: expectedAmountB,
vaultB: undefined }` rather than throwing. -/
def verifyEscrowSetup (expectedAmountB : ℚ) (internalThrow : Bool)
    (postTokenBalancesFound : Bool) (escrowAccount : Option String)
    (vaultsFound : Option (String × String)) (vaultInfosFound : Bool)
    (balanceA balanceB : ℤ) (rawExpectedAmountA rawExpectedAmountB : ℤ)
    (decimalsB : ℕ) (escrowOwnerIsProgram vaultLayoutsOk : Bool) :
    EscrowVerification :=
  let softFail : EscrowVerification := ⟨false, false, expectedAmountB, none⟩
  if internalThrow then softFail
  else if !postTokenBalancesFound then softFail
  else
    match escrowAccount with
    | none => softFail
    | some _ =>
      match vaultsFound with
      | none => softFail
      | some (_, vaultB) =>
        if !vaultInfosFound then softFail
        else
          { isSecure := escrowOwnerIsProgram && vaultLayoutsOk
            isFunded := decide (|balanceA - rawExpectedAmountA| < 1000)
            remainingAmount := ((rawExpectedAmountB - balanceB : ℤ) : ℚ) / 10 ^ decimalsB
            vaultB := some vaultB }

/-- Embedding of `verifyAndCompleteEscrow`.  `verification` is the result of
`verifyEscrowSetup`; `mintFetch` is the oracle for the `getMint` and
associated-address lookups done before the inner `try` (a throw there lands in
the outer `catch`); `transferResult` is the oracle for `transferToVault`.
Returns `(result, transferAttempted)`: the boolean the source returns, and
whether the taker-side transfer was submitted.  The function is total: every
failure is a `false` return, never a throw. -/
def verifyAndCompleteEscrow (verification : EscrowVerification)
    (mintFetch : Except String ℕ) (transferResult : Except String String) :
    Bool × Bool :=
  if !(verification.isSecure && verification.isFunded) then
    (false, false)
  else
    match verification.vaultB with
    | some _ =>
      if verification.remainingAmount > 0 then
        match mintFetch with
        | Except.error _ => (false, false)
        | Except.ok _ =>
          match transferResult with
          | Except.ok _ => (true, true)
          | Except.error _ => (false, true)
      else (false, false)
    | none => (false, false)

/-! ## Negotiation state machine (negotiation.ts) -/

/-- The `negotiation_status` values. -/
inductive NegotiationStatus where
  | not_started
  | pending
  | waiting_for_escrow
  | initiated_escrow
  | completed
  | failed
  deriving DecidableEq, Repr

/-- Route taken by `processNegotiationResponse` for a `pending` negotiation. -/
inductive NegotiationOutcome where
  | transferRoute
  | acceptedDeal
  | revisedOffer
  | negotiationFailed
  deriving DecidableEq, Repr

/-- The `negotiation_status` each route persists for the negotiation:
`offerTradeDeal` saves `pending`, `endNegotiation` saves `failed`; the
transfer and acceptance routes save statuses outside this claim. -/
def persistedStatus : NegotiationOutcome → Option NegotiationStatus
  | NegotiationOutcome.revisedOffer => some NegotiationStatus.pending
  | NegotiationOutcome.negotiationFailed => some NegotiationStatus.failed
  | _ => none

/-- Embedding of `processNegotiationResponse` (negotiation.ts lines
1157-1213), which `handleNegotiation` invokes exactly for negotiations in
status `pending`.  Oracle inputs: `hasInitiatedTransfer`, `hasOfferedTokens`
and `plainAcceptance` are the three LLM classifiers; `dealShouldAccept` is
`evaluateProposedDeal(...).shouldAccept` (consulted only when
`hasOfferedTokens`). -/
def processNegotiationResponse (negotiation_count max_negotiations : ℕ)
    (hasInitiatedTransfer hasOfferedTokens dealShouldAccept plainAcceptance : Bool) :
    NegotiationOutcome :=
  if hasInitiatedTransfer then NegotiationOutcome.transferRoute
  else if hasOfferedTokens then
    if dealShouldAccept then NegotiationOutcome.acceptedDeal
    else NegotiationOutcome.revisedOffer
  else if plainAcceptance then NegotiationOutcome.acceptedDeal
  else if negotiation_count = max_negotiations then NegotiationOutcome.negotiationFailed
  else NegotiationOutcome.revisedOffer

/-! ## Refractory period check (negotiation.ts `hasTooRecentAnInteraction`,
lines 192-206, and the standalone part_001 version, lines 146-160) -/

/-- JavaScript `ToIntegerOrInfinity` on a finite value: truncation toward
zero.  `Date.prototype.setDate` passes its argument through this conversion
(inside `MakeDay`), so fractional day counts are truncated. -/
def jsTrunc (q : ℚ) : ℤ := if 0 ≤ q then ⌊q⌋ else -⌊-q⌋

/-- Embedding of the `NegotiationHandler.hasTooRecentAnInteraction` method
(negotiation.ts).  Times are millisecond timestamps (ℤ); `dayOfMonth` is
`new Date().getDate()` for the current time `nowMs`.  The source computes
`refractoryPeriodAgo` by `setDate(getDate() - refractoryPeriodDays)`, which
normalizes the (truncated) day value, shifting the timestamp by whole days:
the cutoff is `nowMs + (jsTrunc (dayOfMonth - d) - dayOfMonth) * 86400000`. -/
def hasTooRecentAnInteractionMethod (last_interaction : Option ℤ) (nowMs : ℤ)
    (dayOfMonth : ℤ) (refractoryPeriodDays : ℚ) : Bool :=
  match last_interaction with
  | none => false
  | some lastInteraction =>
    let refractoryPeriodAgo :=
      nowMs + (jsTrunc ((dayOfMonth : ℚ) - refractoryPeriodDays) - dayOfMonth) * 86400000
    decide (lastInteraction > refractoryPeriodAgo)

/-- Embedding of the standalone `hasTooRecentAnInteraction` (part_001), which
computes `refractoryPeriodMs = refractoryPeriodDays * 24 * 60 * 60 * 1000` and
compares against `now.getTime() - refractoryPeriodMs` exactly.  Timestamps are
rationals since the cutoff may be fractional. -/
def hasTooRecentAnInteractionUtil (last_interaction : Option ℚ) (nowMs : ℚ)
    (refractoryPeriodDays : ℚ) : Bool :=
  match last_interaction with
  | none => false
  | some lastInteraction =>
    let refractoryPeriodMs := refractoryPeriodDays * 24 * 60 * 60 * 1000
    let refractoryPeriodAgo := nowMs - refractoryPeriodMs
    decide (lastInteraction > refractoryPeriodAgo)

/-- The too-recent branch of `handleNegotiation` (negotiation.ts lines
362-371): when `hasTooRecentAnInteraction` is true the handler returns at once
— `(clearedState, sentReply) = (false, false)` — without touching stored state
or replying; otherwise it clears the stale negotiation state and proceeds. -/
def handleStaleNegotiation (tooRecent : Bool) : Bool × Bool :=
  if tooRecent then (false, false) else (true, true)

/-! ## Theorems -/

/-- Claim C3: `evaluateProposedDeal` returns `accept = false` with both
returned amounts `0` whenever the extracted `ourAmount` exceeds the tier's
current `max_offer_amount` or either extracted amount is zero; when those
checks pass it propagates an error (rather than returning a reject) when
price data is unavailable; and otherwise it accepts exactly when
`counterpartyAmount * counterpartyPrice ≥ ourAmount * ourPrice * 0.95`. -/
theorem evaluateProposedDeal_spec (extracted : Option (ℚ × ℚ)) (maxOfferAmount : ℚ)
    (prices : Option (ℚ × ℚ)) :
    (∀ cp our, extracted = some (cp, our) →
      (our > maxOfferAmount ∨ our = 0 ∨ cp = 0) →
      evaluateProposedDeal extracted maxOfferAmount prices = Except.ok ⟨false, 0, 0⟩) ∧
    (∀ cp our, extracted = some (cp, our) →
      ¬ our > maxOfferAmount → our ≠ 0 → cp ≠ 0 → prices = none →
      evaluateProposedDeal extracted maxOfferAmount prices =
        Except.error "Failed to fetch token prices") ∧
    (∀ cp our ourPrice cpPrice, extracted = some (cp, our) →
      ¬ our > maxOfferAmount → our ≠ 0 → cp ≠ 0 → prices = some (ourPrice, cpPrice) →
      ∃ r, evaluateProposedDeal extracted maxOfferAmount prices = Except.ok r ∧
        (r.shouldAccept = true ↔ cp * cpPrice ≥ our * ourPrice * (95/100)) ∧
        r.counterpartyTokenAmount = cp ∧ r.ourTokenAmount = our) := by
  refine ⟨?_, ?_, ?_⟩
  · rintro cp our rfl hbad
    rcases hbad with h | h | h
    · simp [evaluateProposedDeal, if_pos h]
    · simp [evaluateProposedDeal, h]
    · rcases eq_or_ne our 0 with h0 | h0
      · simp [evaluateProposedDeal, h, h0]
      · simp [evaluateProposedDeal, h, h0]
  · rintro cp our rfl hmax h0 hcp rfl
    simp [evaluateProposedDeal, hmax, h0, hcp]
  · rintro cp our ourPrice cpPrice rfl hmax h0 hcp rfl
    refine ⟨⟨decide (cp * cpPrice ≥ our * ourPrice * (95/100)), cp, our⟩, ?_, ?_, rfl, rfl⟩
    · simp [evaluateProposedDeal, hmax, h0, hcp]
    · simp

/-- Witness for C3: the spec's worked scenario (counterparty offers 900 of
their token at price 1 against 500 of ours at price 2; 900 < 950 so the deal
is rejected by the fair-value test). -/
theorem evaluateProposedDeal_spec_witness :
    ∃ r, evaluateProposedDeal (some (900, 500)) 1000 (some (2, 1)) = Except.ok r ∧
      (r.shouldAccept = true ↔ (900 : ℚ) * 1 ≥ 500 * 2 * (95/100)) ∧
      r.counterpartyTokenAmount = 900 ∧ r.ourTokenAmount = 500 :=
  (evaluateProposedDeal_spec (some (900, 500)) 1000 (some (2, 1))).2.2
    900 500 2 1 rfl (by norm_num) (by norm_num) (by norm_num) rfl

/-- Claim C6: `checkTokenBalance` reports the threshold as met exactly when
the vault's raw balance divided by `10^decimals` is at least
`expectedAmount * threshold`. -/
theorem checkTokenBalance_spec (raw : ℤ) (expectedAmount threshold : ℚ)
    (decimals : ℕ) (balanceRead : Option ℤ) (h : balanceRead = some raw) :
    checkTokenBalance balanceRead expectedAmount threshold decimals = true ↔
      (raw : ℚ) / 10 ^ decimals ≥ expectedAmount * threshold := by
  subst h
  simp [checkTokenBalance]

/-- Witness for C6: the spec scenario `expectedAmount = 1000`, `decimals = 6`,
raw balance `960_000_000`, threshold `0.95`: `960 ≥ 950`, so the threshold is
met. -/
theorem checkTokenBalance_spec_witness :
    checkTokenBalance (some 960000000) 1000 (19/20) 6 = true :=
  (checkTokenBalance_spec 960000000 1000 (19/20) 6 (some 960000000) rfl).mpr
    (by norm_num)

/-- Claim C1 (code_bug evidence): after a successful exchange `executeActions`
sets the task to `completed`, but the completion callback runs inside the same
`try`, so a throwing `notifyEscrowComplete` lands in the `catch` that was
written for exchange errors and overwrites the status with `failed` — the
persisted status is `failed`, not `completed`, exactly the outcome the spec
forbids.  The same call with a non-throwing callback persists `completed`. -/
theorem executeActions_notifyFailure_overwrites_completed :
    (executeActions
      ⟨"Escrow111", some "1881234509876", "VaultB111", "MintB111", 1000, 19/20,
        TaskStatus.pending, none, none⟩
      true 1700000000000 (Except.ok "ExchangeSig") (Except.error "tweet failed")).status
        = TaskStatus.failed ∧
    (executeActions
      ⟨"Escrow111", some "1881234509876", "VaultB111", "MintB111", 1000, 19/20,
        TaskStatus.pending, none, none⟩
      true 1700000000000 (Except.ok "ExchangeSig") (Except.ok ())).status
        = TaskStatus.completed ∧
    TaskStatus.failed ≠ TaskStatus.completed :=
  ⟨rfl, rfl, by decide⟩

/-- Claim C2 (counterexample): a `pending` negotiation with
`negotiation_count = max_negotiations = 3` receiving a rejecting message that
proposes token amounts the Deal Evaluator rejects does NOT transition to
`failed`: the code sends a revised offer and persists `pending`. -/
theorem processNegotiationResponse_reject_at_max_counterexample :
    processNegotiationResponse 3 3 false true false false =
      NegotiationOutcome.revisedOffer ∧
    persistedStatus (processNegotiationResponse 3 3 false true false false) =
      some NegotiationStatus.pending ∧
    NegotiationOutcome.revisedOffer ≠ NegotiationOutcome.negotiationFailed := by
  refine ⟨rfl, rfl, by decide⟩

/-- Claim C2 (amended): for a `pending` negotiation handling a rejection
(not a transfer initiation and not an acceptance), the transition to `failed`
happens exactly when the rejecting message proposes NO token amounts and
`negotiation_count = max_negotiations`; every other rejection — including one
whose proposed amounts the Deal Evaluator rejects, even at the round cap —
keeps the negotiation `pending` with a revised offer sent. -/
theorem processNegotiationResponse_failed_iff (negotiation_count max_negotiations : ℕ)
    (hasOfferedTokens dealShouldAccept plainAcceptance : Bool)
    (hreject : (hasOfferedTokens = true ∧ dealShouldAccept = false) ∨
      (hasOfferedTokens = false ∧ plainAcceptance = false)) :
    (processNegotiationResponse negotiation_count max_negotiations false
        hasOfferedTokens dealShouldAccept plainAcceptance =
        NegotiationOutcome.negotiationFailed ↔
      hasOfferedTokens = false ∧ negotiation_count = max_negotiations) ∧
    (processNegotiationResponse negotiation_count max_negotiations false
        hasOfferedTokens dealShouldAccept plainAcceptance ≠
        NegotiationOutcome.negotiationFailed →
      processNegotiationResponse negotiation_count max_negotiations false
        hasOfferedTokens dealShouldAccept plainAcceptance =
        NegotiationOutcome.revisedOffer ∧
      persistedStatus (processNegotiationResponse negotiation_count max_negotiations
        false hasOfferedTokens dealShouldAccept plainAcceptance) =
        some NegotiationStatus.pending) ∧
    persistedStatus NegotiationOutcome.negotiationFailed =
      some NegotiationStatus.failed := by
  rcases hreject with ⟨hOff, hAcc⟩ | ⟨hOff, hPlain⟩ <;> subst hOff
  · subst hAcc
    simp [processNegotiationResponse, persistedStatus]
  · subst hPlain
    by_cases hc : negotiation_count = max_negotiations <;>
      simp [processNegotiationResponse, persistedStatus, hc]

/-- Witness for C2 (amended): a plain rejection at the round cap
(`negotiation_count = max_negotiations = 3`, no proposed amounts) transitions
to `failed`. -/
theorem processNegotiationResponse_failed_iff_witness :
    processNegotiationResponse 3 3 false false false false =
      NegotiationOutcome.negotiationFailed :=
  (processNegotiationResponse_failed_iff 3 3 false false false
    (Or.inr ⟨rfl, rfl⟩)).1.mpr ⟨rfl, rfl⟩

/-- Claim C4: under the tier constraints
`0 ≤ min_offer_percentage ≤ max_offer_percentage ≤ 100` (and a non-negative
cap, which holds by construction since `adjustOfferLimits` returns the
configured cap, `floor(balance * 0.25)`, or `0`), positive prices, the random
factor in its stated range for the branch taken, and a prior offer amount at
most the cap, the offer produced by `calculateOffer` satisfies
`amount ≤ max_offer_amount`, and the new amount is never below the prior
amount (in particular it is non-negative). -/
theorem calculateOffer_spec (tier : CounterpartyTier)
    (our_token_price counterparty_token_price : ℚ) (prior : Option Offer)
    (randomFactor : ℚ)
    (hcap : 0 ≤ tier.max_offer_amount)
    (hminpct : 0 ≤ tier.min_offer_percentage)
    (hmaxpct : tier.max_offer_percentage ≤ 100)
    (hfInit : ((prior.map Offer.amount).getD 0 = 0) →
      tier.min_offer_percentage / 100 ≤ randomFactor ∧
      randomFactor ≤ tier.max_offer_percentage / 100)
    (hfNext : ((prior.map Offer.amount).getD 0 ≠ 0) →
      1/10 ≤ randomFactor ∧ randomFactor ≤ 1)
    (hprior : (((prior.map Offer.amount).getD 0 : ℤ) : ℚ) ≤ tier.max_offer_amount) :
    (((calculateOffer tier our_token_price counterparty_token_price prior
        randomFactor).amount : ℤ) : ℚ) ≤ tier.max_offer_amount ∧
    (prior.map Offer.amount).getD 0 ≤
      (calculateOffer tier our_token_price counterparty_token_price prior
        randomFactor).amount := by
  have initialCase : ∀ h0 : (0:ℚ) ≤ tier.max_offer_amount,
      tier.min_offer_percentage / 100 ≤ randomFactor →
      randomFactor ≤ tier.max_offer_percentage / 100 →
      ((⌊tier.max_offer_amount * randomFactor⌋ : ℚ) ≤ tier.max_offer_amount ∧
        (0 : ℤ) ≤ ⌊tier.max_offer_amount * randomFactor⌋) := by
    intro h0 hlo hhi
    have hf0 : 0 ≤ randomFactor :=
      le_trans (div_nonneg hminpct (by norm_num)) hlo
    have hf1 : randomFactor ≤ 1 :=
      le_trans hhi (by linarith [div_le_one_of_le₀ hmaxpct (by norm_num : (0:ℚ) ≤ 100)])
    constructor
    · calc (⌊tier.max_offer_amount * randomFactor⌋ : ℚ)
          ≤ tier.max_offer_amount * randomFactor := Int.floor_le _
        _ ≤ tier.max_offer_amount := mul_le_of_le_one_right h0 hf1
    · exact Int.le_floor.mpr (by simpa using mul_nonneg h0 hf0)
  match prior with
  | none =>
    obtain ⟨hlo, hhi⟩ := hfInit (by simp)
    simpa [calculateOffer] using initialCase hcap hlo hhi
  | some current_offer =>
    by_cases hz : current_offer.amount = 0
    · obtain ⟨hlo, hhi⟩ := hfInit (by simpa using hz)
      simpa [calculateOffer, hz] using initialCase hcap hlo hhi
    · obtain ⟨hlo, hhi⟩ := hfNext (by simpa using hz)
      have hroom : (0:ℚ) ≤ tier.max_offer_amount - (current_offer.amount : ℚ) := by
        have h := hprior
        simp only [Option.map_some', Option.getD_some] at h
        linarith
      have hf0 : (0:ℚ) ≤ randomFactor := by linarith
      have hval : (current_offer.amount : ℚ) ≤
          (current_offer.amount : ℚ) +
            (tier.max_offer_amount - (current_offer.amount : ℚ)) * randomFactor := by
        nlinarith
      constructor
      · have hub : (current_offer.amount : ℚ) +
            (tier.max_offer_amount - (current_offer.amount : ℚ)) * randomFactor ≤
            tier.max_offer_amount := by nlinarith
        simp only [calculateOffer, if_neg hz]
        calc ((⌊(current_offer.amount : ℚ) +
                (tier.max_offer_amount - (current_offer.amount : ℚ)) * randomFactor⌋ : ℤ) : ℚ)
            ≤ _ := Int.floor_le _
          _ ≤ tier.max_offer_amount := hub
      · simp only [calculateOffer, if_neg hz, Option.map_some', Option.getD_some]
        exact Int.le_floor.mpr hval

/-- Claim C8 (counterexample): with `refractory_period_days = 0.5` the method
version of `hasTooRecentAnInteraction` (negotiation.ts) still returns true for
a message 18 hours after the last interaction, even though 18h ≥ 12h — the
fractional period is NOT honored exactly, because `setDate` truncates its
argument.  Concrete input: `now = 2024-01-15T18:00:00Z` (ms timestamp
1705341600000, day of month 15), `last_interaction` 18 hours earlier. -/
theorem hasTooRecentAnInteraction_fractional_counterexample :
    hasTooRecentAnInteractionMethod (some 1705276800000) 1705341600000 15 (1/2) = true ∧
    ¬ (((1705341600000 : ℚ) - 1705276800000) < (1/2) * 86400000) := by
  constructor
  · have hfl : jsTrunc (((15 : ℤ) : ℚ) - 1/2) = 14 := by
      rw [jsTrunc, if_pos (by norm_num)]
      push_cast
      norm_num
    simp only [hasTooRecentAnInteractionMethod, hfl]
    decide
  · norm_num

/-- Claim C8 (amended): the standalone `hasTooRecentAnInteraction` of part_001
returns true exactly when the elapsed time is below
`refractory_period_days * 24h`, honoring fractional values exactly; the
`NegotiationHandler` method of negotiation.ts, which computes the cutoff with
`setDate(getDate() - refractoryPeriodDays)`, instead compares against the
period rounded UP to whole days (`⌈refractory_period_days⌉ * 24h`, for a
positive period not exceeding the current day of month, since `setDate`
truncates its fractional argument); while either returns true the inbound
message is ignored — no state change and no reply. -/
theorem hasTooRecentAnInteraction_spec
    (lastMs nowMs dayOfMonth : ℤ) (lastQ nowQ refractoryPeriodDays : ℚ)
    (hday : refractoryPeriodDays ≤ (dayOfMonth : ℚ)) :
    (hasTooRecentAnInteractionUtil (some lastQ) nowQ refractoryPeriodDays = true ↔
      nowQ - lastQ < refractoryPeriodDays * 86400000) ∧
    (hasTooRecentAnInteractionMethod (some lastMs) nowMs dayOfMonth
        refractoryPeriodDays = true ↔
      nowMs - lastMs < ⌈refractoryPeriodDays⌉ * 86400000) ∧
    handleStaleNegotiation true = (false, false) := by
  refine ⟨?_, ?_, rfl⟩
  · simp only [hasTooRecentAnInteractionUtil, decide_eq_true_eq, gt_iff_lt]
    constructor <;> intro h <;> nlinarith
  · have hfl : jsTrunc ((dayOfMonth : ℚ) - refractoryPeriodDays) =
        dayOfMonth - ⌈refractoryPeriodDays⌉ := by
      rw [jsTrunc, if_pos (by linarith), sub_eq_add_neg, Int.floor_int_add,
        Int.floor_neg, sub_eq_add_neg]
    simp only [hasTooRecentAnInteractionMethod, hfl, decide_eq_true_eq, gt_iff_lt]
    omega

/-- Witness for C8 (amended): `refractory_period_days = 0.5`, day of month 15,
elapsed 18 hours: the part_001 version is no longer within the (12-hour)
refractory window, while the negotiation.ts method still is (its effective
window is ⌈0.5⌉ = 1 day). -/
theorem hasTooRecentAnInteraction_spec_witness :
    (hasTooRecentAnInteractionUtil (some 1705276800000) 1705341600000 (1/2) = true ↔
      (1705341600000 : ℚ) - 1705276800000 < (1/2) * 86400000) ∧
    (hasTooRecentAnInteractionMethod (some 1705276800000) 1705341600000 15 (1/2) = true ↔
      (1705341600000 : ℤ) - 1705276800000 < ⌈(1/2 : ℚ)⌉ * 86400000) ∧
    handleStaleNegotiation true = (false, false) :=
  hasTooRecentAnInteraction_spec 1705276800000 1705341600000 15
    1705276800000 1705341600000 (1/2) (by norm_num)

/-- Claim C10: `addPollingTask` is idempotent on the embedded tweet id: a
registration whose tweet id is already present returns without touching the
task list or the persisted state; a fresh registration appends exactly one
`pending` task with the given threshold; and a second call with identical
arguments leaves the task list of the first call unchanged and writes
nothing. -/
theorem addPollingTask_spec (tasks : List PollingTask) (args : AddTaskArgs)
    (threshold : ℚ) :
    ((∃ t ∈ tasks, t.tweetId = some args.tweetId) →
      addPollingTask tasks args threshold = (tasks, false)) ∧
    ((∀ t ∈ tasks, t.tweetId ≠ some args.tweetId) →
      addPollingTask tasks args threshold =
        (tasks ++ [mkPollingTask args threshold], true)) ∧
    addPollingTask (addPollingTask tasks args threshold).1 args threshold =
      ((addPollingTask tasks args threshold).1, false) ∧
    (mkPollingTask args threshold).status = TaskStatus.pending ∧
    (mkPollingTask args threshold).threshold = threshold ∧
    defaultThreshold = 19/20 := by
  have hany : ∀ ts : List PollingTask,
      (ts.any (fun task => task.tweetId == some args.tweetId) = true) ↔
      ∃ t ∈ ts, t.tweetId = some args.tweetId := by
    intro ts
    simp [List.any_eq_true]
  have hpresent : ∀ ts : List PollingTask,
      (∃ t ∈ ts, t.tweetId = some args.tweetId) →
      addPollingTask ts args threshold = (ts, false) := by
    intro ts h
    rw [addPollingTask, if_pos ((hany ts).mpr h)]
  have habsent : ∀ ts : List PollingTask,
      (∀ t ∈ ts, t.tweetId ≠ some args.tweetId) →
      addPollingTask ts args threshold = (ts ++ [mkPollingTask args threshold], true) := by
    intro ts h
    rw [addPollingTask, if_neg]
    intro hc
    obtain ⟨t, ht, hid⟩ := (hany ts).mp hc
    exact h t ht hid
  refine ⟨hpresent tasks, habsent tasks, ?_, rfl, rfl, rfl⟩
  by_cases hc : ∃ t ∈ tasks, t.tweetId = some args.tweetId
  · rw [hpresent tasks hc]
    exact hpresent tasks hc
  · rw [habsent tasks (fun t ht hid => hc ⟨t, ht, hid⟩)]
    exact hpresent _ ⟨mkPollingTask args threshold, by simp, rfl⟩

/-- Witness for C10: registering a task on an empty list appends a single
`pending` task with the default threshold, and a second identical
registration changes nothing and writes nothing. -/
theorem addPollingTask_spec_witness :
    addPollingTask [] ⟨"VaultB111", "MintB111", 1000, "Escrow111", "1881234509876"⟩
        defaultThreshold =
      ([mkPollingTask ⟨"VaultB111", "MintB111", 1000, "Escrow111", "1881234509876"⟩
        defaultThreshold], true) ∧
    addPollingTask
        [mkPollingTask ⟨"VaultB111", "MintB111", 1000, "Escrow111", "1881234509876"⟩
          defaultThreshold]
        ⟨"VaultB111", "MintB111", 1000, "Escrow111", "1881234509876"⟩ defaultThreshold =
      ([mkPollingTask ⟨"VaultB111", "MintB111", 1000, "Escrow111", "1881234509876"⟩
        defaultThreshold], false) :=
  ⟨by
    have h := (addPollingTask_spec []
      ⟨"VaultB111", "MintB111", 1000, "Escrow111", "1881234509876"⟩ defaultThreshold).2.1
      (by simp)
    simpa using h,
   (addPollingTask_spec
      [mkPollingTask ⟨"VaultB111", "MintB111", 1000, "Escrow111", "1881234509876"⟩
        defaultThreshold]
      ⟨"VaultB111", "MintB111", 1000, "Escrow111", "1881234509876"⟩ defaultThreshold).1
      ⟨mkPollingTask ⟨"VaultB111", "MintB111", 1000, "Escrow111", "1881234509876"⟩
        defaultThreshold, by simp, rfl⟩⟩

/-- Claim C9: `verifyAndCompleteEscrow` returns `false` (a value, never a
throw — the embedding is a total function whose every failure path yields
`false`) for every verification failure; it attempts the taker-side transfer
only when the verification reports the escrow secure and funded, a taker
vault is known, and the still-owed amount is strictly positive; and it
returns `true` exactly when such a transfer was attempted and succeeded.
The final conjunct covers `verifyEscrowSetup`'s soft failures: an unfound or
forged transaction reference, a missing escrow/vault account, or an internal
error produce an insecure verification record, so the composition returns
`false`. -/
theorem verifyAndCompleteEscrow_spec (verification : EscrowVerification)
    (mintFetch : Except String ℕ) (transferResult : Except String String) :
    ((verification.isSecure = false ∨ verification.isFunded = false) →
      verifyAndCompleteEscrow verification mintFetch transferResult = (false, false)) ∧
    ((verifyAndCompleteEscrow verification mintFetch transferResult).2 = true →
      verification.isSecure = true ∧ verification.isFunded = true ∧
      verification.remainingAmount > 0 ∧ verification.vaultB ≠ none) ∧
    ((verifyAndCompleteEscrow verification mintFetch transferResult).1 = true ↔
      (verifyAndCompleteEscrow verification mintFetch transferResult).2 = true ∧
      ∃ signature, transferResult = Except.ok signature) ∧
    (∀ (expectedAmountB : ℚ) (internalThrow postTokenBalancesFound : Bool)
      (escrowAccount : Option String) (vaultsFound : Option (String × String))
      (vaultInfosFound : Bool) (balanceA balanceB rawA rawB : ℤ) (decimalsB : ℕ)
      (ownerOk layoutOk : Bool),
      (internalThrow = true ∨ postTokenBalancesFound = false ∨
        escrowAccount = none ∨ vaultsFound = none ∨ vaultInfosFound = false) →
      verifyAndCompleteEscrow
        (verifyEscrowSetup expectedAmountB internalThrow postTokenBalancesFound
          escrowAccount vaultsFound vaultInfosFound balanceA balanceB rawA rawB
          decimalsB ownerOk layoutOk) mintFetch transferResult = (false, false)) := by
  obtain ⟨isSecure, isFunded, remainingAmount, vaultB⟩ := verification
  have main : ∀ (s f : Bool) (r : ℚ) (vb : Option String),
      (s = false ∨ f = false) →
      verifyAndCompleteEscrow ⟨s, f, r, vb⟩ mintFetch transferResult = (false, false) := by
    rintro s f r vb (rfl | rfl) <;> simp [verifyAndCompleteEscrow]
  refine ⟨main isSecure isFunded remainingAmount vaultB, ?_, ?_, ?_⟩
  · cases isSecure <;> cases isFunded <;>
      simp only [verifyAndCompleteEscrow, Bool.and_self, Bool.and_false, Bool.false_and,
        Bool.and_true, Bool.true_and, Bool.not_true, Bool.not_false, if_true, if_false] <;>
      try simp
    cases vaultB with
    | none => simp
    | some vb =>
      by_cases hr : remainingAmount > 0
      · cases mintFetch with
        | error e => simp [hr]
        | ok d =>
          cases transferResult with
          | error e => simp [hr]
          | ok sig => simp [hr]
      · simp [hr]
  · cases isSecure <;> cases isFunded <;>
      simp only [verifyAndCompleteEscrow, Bool.and_self, Bool.and_false, Bool.false_and,
        Bool.and_true, Bool.true_and, Bool.not_true, Bool.not_false, if_true, if_false] <;>
      try simp
    cases vaultB with
    | none => simp
    | some vb =>
      by_cases hr : remainingAmount > 0
      · cases mintFetch with
        | error e => simp [hr]
        | ok d =>
          cases transferResult with
          | error e => simp [hr]
          | ok sig => simp [hr]
      · simp [hr]
  · rintro expectedAmountB internalThrow postTokenBalancesFound escrowAccount
      vaultsFound vaultInfosFound balanceA balanceB rawA rawB decimalsB ownerOk
      layoutOk hfail
    have hsoft : verifyEscrowSetup expectedAmountB internalThrow postTokenBalancesFound
        escrowAccount vaultsFound vaultInfosFound balanceA balanceB rawA rawB
        decimalsB ownerOk layoutOk = ⟨false, false, expectedAmountB, none⟩ := by
      rcases hfail with rfl | rfl | rfl | rfl | rfl
      · simp [verifyEscrowSetup]
      · simp [verifyEscrowSetup]
      · cases internalThrow <;> cases postTokenBalancesFound <;> simp [verifyEscrowSetup]
      · cases internalThrow <;> cases postTokenBalancesFound <;>
          cases escrowAccount <;> simp [verifyEscrowSetup]
      · cases internalThrow <;> cases postTokenBalancesFound <;>
          cases escrowAccount <;> rcases vaultsFound with _ | ⟨va, vb⟩ <;>
          simp [verifyEscrowSetup]
    rw [hsoft]
    exact main false false expectedAmountB none (Or.inl rfl)

/-- Witness for C9: a secure, funded verification with one token still owed
and a succeeding transfer yields `true` with the transfer attempted, and the
theorem recovers the enabling conditions from the attempt. -/
theorem verifyAndCompleteEscrow_spec_witness :
    (true : Bool) = true ∧ (true : Bool) = true ∧ ((1 : ℚ) > 0) ∧
      (some "VaultB111" : Option String) ≠ none :=
  (verifyAndCompleteEscrow_spec ⟨true, true, 1, some "VaultB111"⟩
    (Except.ok 6) (Except.ok "TransferSig")).2.1 (by simp [verifyAndCompleteEscrow])

lemma mem_dedupFirst_of_mem :
    ∀ (l seen : List String) (k : String), k ∈ l → k ∉ seen → k ∈ dedupFirst seen l := by
  intro l
  induction l with
  | nil => intro seen k hk _; cases hk
  | cons a l ih =>
    intro seen k hk hns
    rw [dedupFirst]
    by_cases ha : a ∈ seen
    · rw [if_pos ha]
      rcases List.mem_cons.mp hk with rfl | hl
      · exact absurd ha hns
      · exact ih seen k hl hns
    · rw [if_neg ha]
      rcases List.mem_cons.mp hk with rfl | hl
      · exact List.mem_cons_self _ _
      · by_cases hka : k = a
        · subst hka; exact List.mem_cons_self _ _
        · exact List.mem_cons_of_mem a (ih (a :: seen) k hl (by simp [hka, hns]))

lemma filter_escrow_eq_single {ts : List PollingTask} {t : PollingTask}
    (hnd : uniqueKeys ts) (ht : t ∈ ts) :
    ts.filter (fun u => u.escrow == t.escrow) = [t] := by
  induction ts with
  | nil => cases ht
  | cons a l ih =>
    rw [uniqueKeys, taskKeys, List.map_cons, List.nodup_cons] at hnd
    obtain ⟨hna, hndl⟩ := hnd
    rcases List.mem_cons.mp ht with rfl | hl
    · have hrest : l.filter (fun u => u.escrow == t.escrow) = [] := by
        rw [List.filter_eq_nil_iff]
        intro u hu
        simp only [beq_iff_eq]
        intro he
        exact hna (he ▸ List.mem_map_of_mem PollingTask.escrow hu)
      simp [List.filter_cons, hrest]
    · have hne : (a.escrow == t.escrow) = false := by
        simp only [beq_eq_false_iff_ne, ne_eq]
        intro he
        exact hna (he ▸ List.mem_map_of_mem PollingTask.escrow hl)
      have hul : uniqueKeys l := hndl
      simp only [List.filter_cons, hne, Bool.false_eq_true, if_false]
      exact ih hul hl

lemma mapGet_eq_of_mem {ts : List PollingTask} {t : PollingTask}
    (hnd : uniqueKeys ts) (ht : t ∈ ts) : mapGet ts t.escrow = some t := by
  rw [mapGet, filter_escrow_eq_single hnd ht]
  rfl

lemma mapGet_eq_none_of_forall {ts : List PollingTask} {k : String}
    (h : ∀ t ∈ ts, t.escrow ≠ k) : mapGet ts k = none := by
  rw [mapGet]
  have hnil : ts.filter (fun u => u.escrow == k) = [] := by
    rw [List.filter_eq_nil_iff]
    intro u hu
    simp [h u hu]
  rw [hnil]
  rfl

/-- Claim C5: in the merge at the start of each `pollTasks` pass, a key
present in both task sets with differing statuses yields the in-memory task
carrying the on-disk status; a key present in only one set keeps that task
unchanged; and an in-memory `pending` task whose on-disk copy is
`request_cancel` becomes, on that pass, a task the loop attempts to cancel
on-chain. -/
theorem pollTasks_reconcile_spec (fileTasks memoryTasks : List PollingTask)
    (hf : uniqueKeys fileTasks) (hm : uniqueKeys memoryTasks) :
    (∀ fileTask memoryTask, fileTask ∈ fileTasks → memoryTask ∈ memoryTasks →
      memoryTask.escrow = fileTask.escrow → fileTask.status ≠ memoryTask.status →
      { memoryTask with status := fileTask.status } ∈
        reconcileTasks fileTasks memoryTasks) ∧
    (∀ fileTask, fileTask ∈ fileTasks →
      (∀ memoryTask ∈ memoryTasks, memoryTask.escrow ≠ fileTask.escrow) →
      fileTask ∈ reconcileTasks fileTasks memoryTasks) ∧
    (∀ memoryTask, memoryTask ∈ memoryTasks →
      (∀ fileTask ∈ fileTasks, fileTask.escrow ≠ memoryTask.escrow) →
      memoryTask ∈ reconcileTasks fileTasks memoryTasks) ∧
    (∀ fileTask memoryTask, fileTask ∈ fileTasks → memoryTask ∈ memoryTasks →
      memoryTask.escrow = fileTask.escrow →
      memoryTask.status = TaskStatus.pending →
      fileTask.status = TaskStatus.request_cancel →
      { memoryTask with status := TaskStatus.request_cancel } ∈
        cancelAttempts (reconcileTasks fileTasks memoryTasks)) := by
  have hboth : ∀ fileTask memoryTask, fileTask ∈ fileTasks → memoryTask ∈ memoryTasks →
      memoryTask.escrow = fileTask.escrow → fileTask.status ≠ memoryTask.status →
      { memoryTask with status := fileTask.status } ∈
        reconcileTasks fileTasks memoryTasks := by
    intro ft mt hft hmt hesc hst
    simp only [reconcileTasks]
    refine List.mem_filterMap.mpr ⟨ft.escrow, ?_, ?_⟩
    · exact mem_dedupFirst_of_mem _ [] ft.escrow
        (List.mem_append.mpr (Or.inl (List.mem_map_of_mem _ hft))) (by simp)
    · have h1 : mapGet fileTasks ft.escrow = some ft := mapGet_eq_of_mem hf hft
      have h2 : mapGet memoryTasks ft.escrow = some mt := by
        rw [← hesc]; exact mapGet_eq_of_mem hm hmt
      rw [h1, h2]
      simp [hst]
  refine ⟨hboth, ?_, ?_, ?_⟩
  · intro ft hft honly
    simp only [reconcileTasks]
    refine List.mem_filterMap.mpr ⟨ft.escrow, ?_, ?_⟩
    · exact mem_dedupFirst_of_mem _ [] ft.escrow
        (List.mem_append.mpr (Or.inl (List.mem_map_of_mem _ hft))) (by simp)
    · rw [mapGet_eq_of_mem hf hft, mapGet_eq_none_of_forall honly]
  · intro mt hmt honly
    simp only [reconcileTasks]
    refine List.mem_filterMap.mpr ⟨mt.escrow, ?_, ?_⟩
    · exact mem_dedupFirst_of_mem _ [] mt.escrow
        (List.mem_append.mpr (Or.inr (List.mem_map_of_mem _ hmt))) (by simp)
    · rw [mapGet_eq_of_mem hm hmt, mapGet_eq_none_of_forall honly]
  · intro ft mt hft hmt hesc hpend hreq
    have hst : ft.status ≠ mt.status := by
      rw [hpend, hreq]
      decide
    have hmem := hboth ft mt hft hmt hesc hst
    rw [hreq] at hmem
    exact List.mem_filter.mpr ⟨hmem, by simp⟩

/-- Witness for C5: one on-disk task at `request_cancel` and the same-escrow
in-memory task at `pending` (with in-memory field values otherwise): the
merged task keeps the in-memory fields, carries status `request_cancel`, and
is among the tasks the pass attempts to cancel. -/
theorem pollTasks_reconcile_spec_witness :
    ({ escrow := "Escrow111", tweetId := some "1881234509876",
       associatedTokenAccount := "VaultMem", mintAddress := "MintB111",
       expectedAmount := 1000, threshold := 19/20,
       status := TaskStatus.request_cancel, error := none,
       completedTime := none } : PollingTask) ∈
      cancelAttempts (reconcileTasks
        [{ escrow := "Escrow111", tweetId := none,
           associatedTokenAccount := "VaultDisk", mintAddress := "MintB111",
           expectedAmount := 1000, threshold := 19/20,
           status := TaskStatus.request_cancel, error := none,
           completedTime := none }]
        [{ escrow := "Escrow111", tweetId := some "1881234509876",
           associatedTokenAccount := "VaultMem", mintAddress := "MintB111",
           expectedAmount := 1000, threshold := 19/20,
           status := TaskStatus.pending, error := none,
           completedTime := none }]) :=
  (pollTasks_reconcile_spec _ _ (by simp [uniqueKeys, taskKeys])
      (by simp [uniqueKeys, taskKeys])).2.2.2
    _ _ (List.mem_singleton.mpr rfl) (List.mem_singleton.mpr rfl) rfl rfl rfl

/-- Claim C7: the `setupEscrow` submission loop performs at most
`MAX_RETRIES = 3` attempts; every submission carries the priority-fee
instruction; an attempt is followed by another one only if it failed with the
block-height-exceeded condition; any other submission error propagates
immediately, ending the run right there with that error; and the number of
fresh-blockhash fetches in the retry path equals the number of
block-height failures encountered (one per retry trigger). -/
theorem setupEscrow_retry_spec (outcome : ℕ → AttemptResult) :
    (setupEscrowRun outcome).attempts ≤ MAX_RETRIES ∧
    (∀ blockhash, (setupFinalTx blockhash).hasPriorityFeeIx = true ∧
      (setupFinalTx blockhash).recentBlockhash = blockhash) ∧
    (∀ i, i + 1 < (setupEscrowRun outcome).attempts →
      isBlockHeightFailure (outcome i) = true) ∧
    (∀ i msg, i < (setupEscrowRun outcome).attempts →
      outcome i = AttemptResult.failure false msg →
      (setupEscrowRun outcome).result = Except.error msg ∧
      (setupEscrowRun outcome).attempts = i + 1) ∧
    (setupEscrowRun outcome).retryBlockhashFetches =
      ((List.range (setupEscrowRun outcome).attempts).filter
        (fun i => isBlockHeightFailure (outcome i))).length := by
  have hrange1 : List.range 1 = [0] := rfl
  have hrange2 : List.range 2 = [0, 1] := rfl
  have hrange3 : List.range 3 = [0, 1, 2] := rfl
  cases h0 : outcome 0 with
  | success s0 =>
    simp only [setupEscrowRun, MAX_RETRIES, setupEscrowGo, h0]
    refine ⟨by omega, fun bh => ⟨rfl, rfl⟩, fun i hi => absurd hi (by omega), ?_, ?_⟩
    · intro i msg hi hout
      interval_cases i
      rw [h0] at hout
      cases hout
    · simp [hrange1, h0, isBlockHeightFailure]
  | failure bh0 m0 =>
    cases bh0 with
    | false =>
      simp only [setupEscrowRun, MAX_RETRIES, setupEscrowGo, h0]
      refine ⟨by omega, fun bh => ⟨rfl, rfl⟩, fun i hi => absurd hi (by omega), ?_, ?_⟩
      · intro i msg hi hout
        interval_cases i
        rw [h0] at hout
        cases hout
        exact ⟨rfl, rfl⟩
      · simp [hrange1, h0, isBlockHeightFailure]
    | true =>
      cases h1 : outcome 1 with
      | success s1 =>
        simp only [setupEscrowRun, MAX_RETRIES, setupEscrowGo, h0, h1]
        refine ⟨by omega, fun bh => ⟨rfl, rfl⟩, ?_, ?_, ?_⟩
        · intro i hi
          have hz : i = 0 := by omega
          subst hz
          simp [h0, isBlockHeightFailure]
        · intro i msg hi hout
          interval_cases i
          · rw [h0] at hout; cases hout
          · rw [h1] at hout; cases hout
        · simp [hrange2, h0, h1, isBlockHeightFailure]
      | failure bh1 m1 =>
        cases bh1 with
        | false =>
          simp only [setupEscrowRun, MAX_RETRIES, setupEscrowGo, h0, h1]
          refine ⟨by omega, fun bh => ⟨rfl, rfl⟩, ?_, ?_, ?_⟩
          · intro i hi
            have hz : i = 0 := by omega
            subst hz
            simp [h0, isBlockHeightFailure]
          · intro i msg hi hout
            interval_cases i
            · rw [h0] at hout; cases hout
            · rw [h1] at hout; cases hout; exact ⟨rfl, rfl⟩
          · simp [hrange2, h0, h1, isBlockHeightFailure]
        | true =>
          cases h2 : outcome 2 with
          | success s2 =>
            simp only [setupEscrowRun, MAX_RETRIES, setupEscrowGo, h0, h1, h2]
            refine ⟨by omega, fun bh => ⟨rfl, rfl⟩, ?_, ?_, ?_⟩
            · intro i hi
              have hub : i ≤ 1 := by omega
              interval_cases i <;> simp [h0, h1, isBlockHeightFailure]
            · intro i msg hi hout
              interval_cases i
              · rw [h0] at hout; cases hout
              · rw [h1] at hout; cases hout
              · rw [h2] at hout; cases hout
            · simp [hrange3, h0, h1, h2, isBlockHeightFailure]
          | failure bh2 m2 =>
            cases bh2 with
            | false =>
              simp only [setupEscrowRun, MAX_RETRIES, setupEscrowGo, h0, h1, h2]
              refine ⟨by omega, fun bh => ⟨rfl, rfl⟩, ?_, ?_, ?_⟩
              · intro i hi
                have hub : i ≤ 1 := by omega
                interval_cases i <;> simp [h0, h1, isBlockHeightFailure]
              · intro i msg hi hout
                interval_cases i
                · rw [h0] at hout; cases hout
                · rw [h1] at hout; cases hout
                · rw [h2] at hout; cases hout; exact ⟨rfl, rfl⟩
              · simp [hrange3, h0, h1, h2, isBlockHeightFailure]
            | true =>
              simp only [setupEscrowRun, MAX_RETRIES, setupEscrowGo, h0, h1, h2]
              refine ⟨by omega, fun bh => ⟨rfl, rfl⟩, ?_, ?_, ?_⟩
              · intro i hi
                have hub : i ≤ 1 := by omega
                interval_cases i <;> simp [h0, h1, isBlockHeightFailure]
              · intro i msg hi hout
                interval_cases i
                · rw [h0] at hout; cases hout
                · rw [h1] at hout; cases hout
                · rw [h2] at hout; cases hout
              · simp [hrange3, h0, h1, h2, isBlockHeightFailure]

/-- A concrete attempt oracle: the first submission hits the block-height
validity window, the second succeeds. -/
def demoOutcome : ℕ → AttemptResult := fun i =>
  if i = 0 then
    AttemptResult.failure true
      "TransactionExpiredBlockheightExceededError: block height exceeded"
  else AttemptResult.success "SetupSig111"

/-- Witness for C7: with `demoOutcome` the run makes a second attempt, and
the theorem recovers that the first attempt must have been a
block-height-exceeded failure. -/
theorem setupEscrow_retry_spec_witness :
    isBlockHeightFailure (demoOutcome 0) = true :=
  (setupEscrow_retry_spec demoOutcome).2.2.1 0
    (by simp [setupEscrowRun, MAX_RETRIES, setupEscrowGo, demoOutcome])

/-- Witness for C4: the spec scenario — tier
`{max_offer_amount: 1000, min: 80, max: 90}`, prices `$2`/`$1`, initial round,
random factor `0.85`: the offer amount is capped by 1000 and non-negative. -/
theorem calculateOffer_spec_witness :
    (((calculateOffer ⟨1000, 80, 90⟩ 2 1 none (85/100)).amount : ℤ) : ℚ) ≤ 1000 ∧
    (0 : ℤ) ≤ (calculateOffer ⟨1000, 80, 90⟩ 2 1 none (85/100)).amount := by
  have h := calculateOffer_spec ⟨1000, 80, 90⟩ 2 1 none (85/100)
    (by norm_num) (by norm_num) (by norm_num)
    (fun _ => by norm_num) (fun hne => absurd rfl hne) (by norm_num)
  simpa using h
